import Mathlib

/-!
Verification development for the Wekruit user-retention survival-analysis script
(`01_survival_analysis.py`).  The data-generation and reporting logic of the script
is embedded over exact rationals; the statistical-library routines the script calls
(`lifelines` Kaplan–Meier estimation, log-rank test, Cox fit) are not part of the
repository's sources and are modelled from the specification where a claim depends
on them.
-/

namespace Retention

/-- Subscription tier of a user record (column `subscription_tier`). -/
inductive Tier
  | free
  | premium
deriving DecidableEq, Repr

/-- Study horizon in days: `study_end = 120` in the source. -/
def study_end : ℚ := 120

/-- Baseline hazard of a record (source lines 45–51): starts at the constant 0.015,
is multiplied by 0.43 when the subscription tier is premium, and then multiplied by
0.32 when the interview count is at least 5. -/
def baseline_hazard (tier : Tier) (num_interviews : ℕ) : ℚ :=
  let h0 : ℚ := 15 / 1000
  let h1 : ℚ := if tier = Tier.premium then h0 * (43 / 100) else h0
  if 5 ≤ num_interviews then h1 * (32 / 100) else h1

/-- Modelled from the spec: `np.random.exponential` is library code outside the
repository; per the spec, time-to-churn is an exponential draw whose rate is the
record's hazard, i.e. the sampler returns its scale argument times a unit-rate
exponential draw `e`. -/
def exponentialSample (scale e : ℚ) : ℚ := scale * e

/-- Scale argument the script passes to the exponential sampler (source line 54):
the reciprocal of the record's baseline hazard. -/
def churnScale (tier : Tier) (num_interviews : ℕ) : ℚ :=
  1 / baseline_hazard tier num_interviews

/-- Simulated time-to-churn of a record (source line 54), as a function of the
unit-rate exponential draw `e` consumed from the random stream. -/
def time_to_churn (tier : Tier) (num_interviews : ℕ) (e : ℚ) : ℚ :=
  exponentialSample (churnScale tier num_interviews) e

/-- Churn indicator (source line 58): 1 when the simulated time-to-churn falls
within the study horizon, else 0. -/
def churned (ttc : ℚ) : ℕ :=
  if ttc ≤ study_end then 1 else 0

/-- Observed, possibly censored, duration (source line 59): the simulated
time-to-churn capped at the study horizon. -/
def time_observed (ttc : ℚ) : ℚ :=
  min ttc study_end

/-- Number of subjects at risk at time `t`: those whose observed duration is ≥ `t`.
Part of the survival estimator, modelled from the spec (the estimator itself is
library code outside the repository). -/
def atRisk (ps : List (ℚ × Bool)) (t : ℚ) : ℕ :=
  (ps.filter fun p => decide (t ≤ p.1)).length

/-- Number of events (churns) recorded exactly at time `t`. -/
def deathsAt (ps : List (ℚ × Bool)) (t : ℚ) : ℕ :=
  (ps.filter fun p => decide (p.1 = t) && p.2).length

/-- The distinct times at which an event was observed. -/
def eventTimes (ps : List (ℚ × Bool)) : List ℚ :=
  ((ps.filter fun p => p.2).map Prod.fst).dedup

/-- One factor of the product-limit estimate: the estimated probability of
surviving past event time `u` given being at risk there. -/
def kmFactor (ps : List (ℚ × Bool)) (u : ℚ) : ℚ :=
  1 - (deathsAt ps u : ℚ) / (atRisk ps u : ℚ)

/-- Modelled from the spec: the survival estimator (`KaplanMeierFitter`, library
code outside the repository) computes the standard product-limit estimate
S(t) = ∏ over event times u ≤ t of (1 - deaths(u)/atRisk(u)). -/
def km (ps : List (ℚ × Bool)) (t : ℚ) : ℚ :=
  ((eventTimes ps).filter fun u => decide (u ≤ t)).foldr
    (fun u acc => kmFactor ps u * acc) 1

/-- Modelled from the spec: the median survival time is the first time the survival
estimate reaches 1/2 or below; `none` stands for the infinite value the library
returns when the curve never crosses 1/2. -/
def median_survival_time (ps : List (ℚ × Bool)) : Option ℚ :=
  ((eventTimes ps).filter fun u => decide (km ps u ≤ 1 / 2)).min?

/-- Modelled from the spec: Python numeric formatting renders the library's
infinite median as the string "inf" and a finite median as a numeral; the script
interpolates the value unconditionally. -/
def formatMedianValue : Option ℚ → String
  | none => "inf"
  | some q => toString q

/-- The median-survival report line the script prints for a subgroup (source lines
101–107): plain interpolation of the formatted value, with no case split on
whether the median is defined. -/
def medianReportLine (ps : List (ℚ × Bool)) : String :=
  "  Median survival: " ++ formatMedianValue (median_survival_time ps) ++ " days"

/-- The distinct event times pooled over the two compared subgroups. -/
def pooledEventTimes (a b : List (ℚ × Bool)) : List ℚ :=
  eventTimes (a ++ b)

/-- Observed-minus-expected term and variance term of the log-rank sum at one
pooled event time. -/
def logrankTerms (a b : List (ℚ × Bool)) (u : ℚ) : ℚ × ℚ :=
  let nA : ℚ := atRisk a u
  let nB : ℚ := atRisk b u
  let n : ℚ := nA + nB
  let dA : ℚ := deathsAt a u
  let dB : ℚ := deathsAt b u
  let d : ℚ := dA + dB
  (dA - d * nA / n, d * (nA / n) * (nB / n) * (n - d) / (n - 1))

/-- Modelled from the spec: `logrank_test` (library code outside the repository)
computes the standard two-sample log-rank statistic from the two subgroups'
(duration, event) pairs; it consumes no randomness. -/
def logrank_statistic (a b : List (ℚ × Bool)) : ℚ :=
  let oe := ((pooledEventTimes a b).map fun u => (logrankTerms a b u).1).sum
  let v := ((pooledEventTimes a b).map fun u => (logrankTerms a b u).2).sum
  oe ^ 2 / v

/-- One run of the log-rank test inside the script: `pv` stands for the fixed
chi-squared tail function producing the p-value from the statistic, and `rng` for
the script's global random state, which the test neither reads nor advances.
Returns ((statistic, p-value), random state after the call). -/
def logrank_run (pv : ℚ → ℚ) (rng : ℕ) (a b : List (ℚ × Bool)) : (ℚ × ℚ) × ℕ :=
  ((logrank_statistic a b, pv (logrank_statistic a b)), rng)

/-- Coefficients and 95% confidence-interval bounds of the fitted Cox model, one
covariate per field as produced by the dummy encoding in the script (premium tier,
interview count, average score, and the two retained user-type indicators). -/
structure CoxFit where
  coef_interviews : ℚ
  coef_score : ℚ
  coef_premium : ℚ
  coef_jobseeker : ℚ
  coef_recruiter : ℚ
  ciLo_premium : ℚ
  ciHi_premium : ℚ
  ciLo_interviews : ℚ
  ciHi_interviews : ℚ
deriving DecidableEq, Repr

/-- The fitted coefficients as the (covariate, coefficient) rows of the model
summary, in column order of the encoded design matrix. -/
def coefRows (c : CoxFit) : List (String × ℚ) :=
  [("num_interviews", c.coef_interviews),
   ("avg_score", c.coef_score),
   ("subscription_tier_premium", c.coef_premium),
   ("user_type_job_seeker", c.coef_jobseeker),
   ("user_type_recruiter", c.coef_recruiter)]

/-- Modelled from the spec: the regression summary reports, for every covariate,
the coefficient together with the derived hazard ratio exp(coefficient); `e`
stands for the exponential function the script applies (`np.exp`). -/
def summaryRows (e : ℚ → ℚ) (c : CoxFit) : List (String × ℚ × ℚ) :=
  (coefRows c).map fun r => (r.1, r.2, e r.2)

/-- The hazard ratios and confidence-interval endpoints the script derives in its
key-findings block (source lines 177–184), each obtained by applying `np.exp`
(here `e`) to the fitted coefficient or interval bound. -/
structure KeyFindings where
  hr_premium : ℚ
  hr_interviews : ℚ
  hrCiLo_premium : ℚ
  hrCiHi_premium : ℚ
  hrCiLo_interviews : ℚ
  hrCiHi_interviews : ℚ
deriving DecidableEq, Repr

/-- The key-findings computation of the script (source lines 177–184). -/
def keyFindings (e : ℚ → ℚ) (c : CoxFit) : KeyFindings :=
  { hr_premium := e c.coef_premium
    hr_interviews := e c.coef_interviews
    hrCiLo_premium := e c.ciLo_premium
    hrCiHi_premium := e c.ciHi_premium
    hrCiLo_interviews := e c.ciLo_interviews
    hrCiHi_interviews := e c.ciHi_interviews }

/-- Modelled from the spec: fitting the proportional-hazards model either
converges, yielding a fit, or fails to converge (collinear or degenerate
covariates), which the library signals as an error. -/
inductive FitResult
  | ok (fit : CoxFit)
  | convergenceError (msg : String)

/-- The regression step of the script (source lines 170–184): `cph.fit` is called
with no surrounding exception handler, so a convergence error propagates to the
top level as a fatal abort carrying the library's message, while a converged fit
flows on into the key-findings report. -/
def runRegression (e : ℚ → ℚ) (r : FitResult) : Except String KeyFindings :=
  match r with
  | FitResult.ok fit => Except.ok (keyFindings e fit)
  | FitResult.convergenceError msg => Except.error msg

/-- A concrete fitted model used to instantiate the reporting theorems. -/
def cfit0 : CoxFit :=
  ⟨2, 3, 5, 7, 11, 13, 17, 19, 23⟩

end Retention

namespace Retention

/-- C1: for every record, the observed duration equals min(time-to-churn, 120), the
churn indicator equals 1 iff the time-to-churn is at most 120, and hence the
observed duration never exceeds the study horizon. -/
theorem C1_censoring_invariant (ttc : ℚ) :
    time_observed ttc = min ttc study_end ∧
    (churned ttc = 1 ↔ ttc ≤ study_end) ∧
    time_observed ttc ≤ study_end := by
  refine ⟨rfl, ?_, min_le_right _ _⟩
  unfold churned
  split <;> simp_all

/-- C2: the baseline hazard starts at 0.015, is multiplied by 0.43 exactly when the
tier is premium and, cumulatively, by 0.32 exactly when the interview count is ≥ 5;
a record in neither low-risk category keeps hazard 0.015. -/
theorem C2_hazard_factors (t : Tier) (n : ℕ) :
    baseline_hazard t n
      = (15 / 1000 : ℚ) * (if t = Tier.premium then 43 / 100 else 1)
          * (if 5 ≤ n then 32 / 100 else 1) ∧
    (t = Tier.free → n < 5 → baseline_hazard t n = 15 / 1000) := by
  constructor
  · unfold baseline_hazard
    rcases t <;> by_cases h : 5 ≤ n <;> simp [h]
  · intro ht hn
    subst ht
    unfold baseline_hazard
    simp [Nat.not_le.mpr hn]

/-- Witness for C2 at a concrete record: free tier, 3 interviews, hazard 0.015. -/
theorem C2_hazard_factors_witness :
    baseline_hazard Tier.free 3 = 15 / 1000 :=
  (C2_hazard_factors Tier.free 3).2 rfl (by norm_num)

/-- C3: the scale argument passed to the exponential sampler equals 1 divided by the
record's hazard, so the rate (reciprocal scale) of the sampled distribution equals
the hazard, and the draw is the scale times a unit-rate exponential draw. -/
theorem C3_exponential_rate (t : Tier) (n : ℕ) :
    churnScale t n = 1 / baseline_hazard t n ∧
    1 / churnScale t n = baseline_hazard t n ∧
    ∀ e : ℚ, time_to_churn t n e = churnScale t n * e :=
  ⟨rfl, one_div_one_div _, fun _ => rfl⟩

/-- C10: every record's baseline hazard lies in the finite positive set
{0.015, 0.015·0.43, 0.015·0.32, 0.015·0.43·0.32}, is strictly positive (so the
reciprocal scale is well defined), and the simulated time-to-churn is nonnegative
whenever the underlying unit-exponential draw is. -/
theorem C10_hazard_positive (t : Tier) (n : ℕ) :
    (baseline_hazard t n = 15 / 1000 ∨
      baseline_hazard t n = 15 / 1000 * (43 / 100) ∨
      baseline_hazard t n = 15 / 1000 * (32 / 100) ∨
      baseline_hazard t n = 15 / 1000 * (43 / 100) * (32 / 100)) ∧
    0 < baseline_hazard t n ∧
    ∀ e : ℚ, 0 ≤ e → 0 ≤ time_to_churn t n e := by
  have hset : baseline_hazard t n = 15 / 1000 ∨
      baseline_hazard t n = 15 / 1000 * (43 / 100) ∨
      baseline_hazard t n = 15 / 1000 * (32 / 100) ∨
      baseline_hazard t n = 15 / 1000 * (43 / 100) * (32 / 100) := by
    unfold baseline_hazard
    rcases t <;> by_cases h : 5 ≤ n <;> simp [h]
  have hpos : 0 < baseline_hazard t n := by
    rcases hset with h | h | h | h <;> rw [h] <;> norm_num
  refine ⟨hset, hpos, fun e he => ?_⟩
  unfold time_to_churn exponentialSample churnScale
  exact mul_nonneg (by positivity) he

/-- Witness for C10 at a concrete record: premium tier, 6 interviews, draw 2. -/
theorem C10_hazard_positive_witness :
    0 ≤ (2 : ℚ) ∧ 0 ≤ time_to_churn Tier.premium 6 2 :=
  ⟨by norm_num, (C10_hazard_positive Tier.premium 6).2.2 2 (by norm_num)⟩

/-- Events recorded at a time are among the subjects at risk at that time. -/
theorem deathsAt_le_atRisk (ps : List (ℚ × Bool)) (u : ℚ) :
    deathsAt ps u ≤ atRisk ps u := by
  unfold deathsAt atRisk
  rw [← List.countP_eq_length_filter, ← List.countP_eq_length_filter]
  apply List.countP_mono_left
  intro p _ hp
  simp only [Bool.and_eq_true, decide_eq_true_eq] at hp ⊢
  exact le_of_eq hp.1.symm

/-- Each product-limit factor is nonnegative. -/
theorem kmFactor_nonneg (ps : List (ℚ × Bool)) (u : ℚ) : 0 ≤ kmFactor ps u := by
  unfold kmFactor
  rcases Nat.eq_zero_or_pos (atRisk ps u) with h | h
  · have hd : deathsAt ps u = 0 := Nat.le_zero.mp (h ▸ deathsAt_le_atRisk ps u)
    simp [h, hd]
  · have hn : (0 : ℚ) < atRisk ps u := by exact_mod_cast h
    have hdiv : (deathsAt ps u : ℚ) / atRisk ps u ≤ 1 := by
      rw [div_le_one hn]
      exact_mod_cast deathsAt_le_atRisk ps u
    linarith

/-- Each product-limit factor is at most one. -/
theorem kmFactor_le_one (ps : List (ℚ × Bool)) (u : ℚ) : kmFactor ps u ≤ 1 := by
  unfold kmFactor
  have hd : (0 : ℚ) ≤ (deathsAt ps u : ℚ) / atRisk ps u := by positivity
  linarith

/-- A product of product-limit factors is nonnegative. -/
theorem kmProd_nonneg (ps : List (ℚ × Bool)) (l : List ℚ) :
    0 ≤ l.foldr (fun u acc => kmFactor ps u * acc) 1 := by
  induction l with
  | nil => norm_num
  | cons a l ih => exact mul_nonneg (kmFactor_nonneg ps a) ih

/-- A product of product-limit factors is at most one. -/
theorem kmProd_le_one (ps : List (ℚ × Bool)) (l : List ℚ) :
    l.foldr (fun u acc => kmFactor ps u * acc) 1 ≤ 1 := by
  induction l with
  | nil => norm_num
  | cons a l ih =>
    exact mul_le_one₀ (kmFactor_le_one ps a) (kmProd_nonneg ps l) ih

/-- Dropping factors from a product of product-limit factors can only increase it. -/
theorem kmProd_filter_ge (ps : List (ℚ × Bool)) (q : ℚ → Bool) (l : List ℚ) :
    l.foldr (fun u acc => kmFactor ps u * acc) 1 ≤
      (l.filter q).foldr (fun u acc => kmFactor ps u * acc) 1 := by
  induction l with
  | nil => simp
  | cons a l ih =>
    by_cases h : q a
    · rw [List.filter_cons_of_pos h]
      simp only [List.foldr_cons]
      exact mul_le_mul_of_nonneg_left ih (kmFactor_nonneg ps a)
    · rw [List.filter_cons_of_neg (by simp [h])]
      simp only [List.foldr_cons]
      calc kmFactor ps a * l.foldr (fun u acc => kmFactor ps u * acc) 1
          ≤ 1 * l.foldr (fun u acc => kmFactor ps u * acc) 1 :=
            mul_le_mul_of_nonneg_right (kmFactor_le_one ps a) (kmProd_nonneg ps l)
        _ = l.foldr (fun u acc => kmFactor ps u * acc) 1 := one_mul _
        _ ≤ (l.filter q).foldr (fun u acc => kmFactor ps u * acc) 1 := ih

/-- The product-limit estimate is non-increasing in time. -/
theorem km_antitone (ps : List (ℚ × Bool)) {s t : ℚ} (hst : s ≤ t) :
    km ps t ≤ km ps s := by
  unfold km
  have h1 : (eventTimes ps).filter (fun u => decide (u ≤ s))
      = (eventTimes ps).filter fun u => decide (u ≤ s) && decide (u ≤ t) := by
    apply List.filter_congr
    intro u _
    by_cases h : u ≤ s
    · simp [h, le_trans h hst]
    · simp [h]
  rw [h1, ← List.filter_filter]
  exact kmProd_filter_ge ps _ _

/-- When every duration is positive, no event time is ≤ 0, so the estimate at 0 is 1. -/
theorem km_zero_of_pos (ps : List (ℚ × Bool)) (h : ∀ p ∈ ps, 0 < p.1) :
    km ps 0 = 1 := by
  unfold km
  have he : (eventTimes ps).filter (fun u => decide (u ≤ 0)) = [] := by
    rw [List.filter_eq_nil_iff]
    intro u hu
    simp only [decide_eq_true_eq]
    unfold eventTimes at hu
    rw [List.mem_dedup] at hu
    obtain ⟨p, hpmem, hpu⟩ := List.mem_map.mp hu
    have hpos := h p (List.mem_of_mem_filter hpmem)
    rw [hpu] at hpos
    exact not_le.mpr hpos
  rw [he]
  rfl

/-- A subgroup with zero events has no event times. -/
theorem eventTimes_eq_nil (ps : List (ℚ × Bool)) (h : ∀ p ∈ ps, p.2 = false) :
    eventTimes ps = [] := by
  unfold eventTimes
  have hf : ps.filter (fun p => p.2) = [] := by
    rw [List.filter_eq_nil_iff]
    intro p hp
    simp [h p hp]
  rw [hf]
  rfl

/-- C4 (amended): for every input list of (duration, event) pairs, the
product-limit survival estimate lies in [0,1] at every evaluation point (in
particular at checkpoints 30/60/90/120), is non-increasing in time, and equals 1
at time 0 provided no event is recorded at duration 0 — as holds for the strictly
positive durations this program generates. -/
theorem C4_km_properties (ps : List (ℚ × Bool)) (s t : ℚ) :
    0 ≤ km ps t ∧ km ps t ≤ 1 ∧ (s ≤ t → km ps t ≤ km ps s) ∧
    ((∀ p ∈ ps, 0 < p.1) → km ps 0 = 1) := by
  refine ⟨?_, ?_, fun h => km_antitone ps h, km_zero_of_pos ps⟩
  · unfold km
    exact kmProd_nonneg ps _
  · unfold km
    exact kmProd_le_one ps _

/-- C4 counterexample: on the input consisting of a single event at duration 0,
the product-limit estimate at time 0 is 0, not 1, so the claim fails as stated
over every input set of pairs. -/
theorem C4_km_counterexample :
    km [((0 : ℚ), true)] 0 = 0 ∧ (0 : ℚ) ≠ 1 := by
  constructor
  · have he : eventTimes [((0 : ℚ), true)] = [0] := by
      simp [eventTimes]
    unfold km
    rw [he]
    have hf : List.filter (fun u => decide (u ≤ (0 : ℚ))) [0] = [0] := by simp
    rw [hf]
    simp [kmFactor, deathsAt, atRisk]
  · norm_num

/-- Witness for C4 at a concrete input: one event at duration 5, one censored
record at 7, evaluation points 3 ≤ 6. -/
theorem C4_km_properties_witness :
    0 ≤ km [((5 : ℚ), true), ((7 : ℚ), false)] 6 ∧
    km [((5 : ℚ), true), ((7 : ℚ), false)] 6 ≤ 1 ∧
    km [((5 : ℚ), true), ((7 : ℚ), false)] 6 ≤ km [((5 : ℚ), true), ((7 : ℚ), false)] 3 ∧
    km [((5 : ℚ), true), ((7 : ℚ), false)] 0 = 1 := by
  obtain ⟨h1, h2, h3, h4⟩ := C4_km_properties [((5 : ℚ), true), ((7 : ℚ), false)] 3 6
  refine ⟨h1, h2, h3 (by norm_num), h4 ?_⟩
  intro p hp
  rcases List.mem_cons.mp hp with h | h
  · rw [h]
    norm_num
  · rw [List.mem_singleton.mp h]
    norm_num

/-- C6 counterexample: on a subgroup with zero events the script prints the
library's defaulted values through its generic formatting — the median line is
the plain interpolation of the infinite default, "inf", and the checkpoint
estimate silently defaults to 1 — with no explicit report that the estimates are
undefined. -/
theorem C6_zero_events_counterexample :
    medianReportLine [((10 : ℚ), false), ((20 : ℚ), false)] = "  Median survival: inf days" ∧
    km [((10 : ℚ), false), ((20 : ℚ), false)] 90 = 1 := by
  have he : eventTimes [((10 : ℚ), false), ((20 : ℚ), false)] = [] := by
    simp [eventTimes]
  constructor
  · unfold medianReportLine median_survival_time
    rw [he]
    rfl
  · unfold km
    rw [he]
    rfl

/-- C6 (amended): for every subgroup with zero events, the median survival time is
the undefined/infinite value, the script's median line is the same unconditional
interpolation used for any number (rendering "inf"), and every checkpoint survival
estimate defaults to 1 — no explicit undefinedness report is produced. -/
theorem C6_zero_events_report (ps : List (ℚ × Bool)) (h : ∀ p ∈ ps, p.2 = false) :
    median_survival_time ps = none ∧
    medianReportLine ps = "  Median survival: inf days" ∧
    ∀ t : ℚ, km ps t = 1 := by
  have he : eventTimes ps = [] := eventTimes_eq_nil ps h
  have hm : median_survival_time ps = none := by
    unfold median_survival_time
    rw [he]
    rfl
  refine ⟨hm, ?_, fun t => ?_⟩
  · unfold medianReportLine
    rw [hm]
    rfl
  · unfold km
    rw [he]
    rfl

/-- Witness for C6 at a concrete zero-event subgroup. -/
theorem C6_zero_events_report_witness :
    median_survival_time [((10 : ℚ), false)] = none ∧
    medianReportLine [((10 : ℚ), false)] = "  Median survival: inf days" ∧
    km [((10 : ℚ), false)] 90 = 1 := by
  obtain ⟨h1, h2, h3⟩ := C6_zero_events_report [((10 : ℚ), false)] (by decide)
  exact ⟨h1, h2, h3 90⟩

/-- C8: the log-rank test is a pure function of the two subgroups' (duration,
event) inputs — it neither reads nor advances the random state — so any two runs
on identical inputs return the identical statistic and p-value, and leave the
random state unchanged. -/
theorem C8_logrank_deterministic (pv : ℚ → ℚ) (s1 s2 : ℕ) (a b : List (ℚ × Bool)) :
    (logrank_run pv s1 a b).1 = (logrank_run pv s2 a b).1 ∧
    (logrank_run pv s1 a b).1.1 = logrank_statistic a b ∧
    (logrank_run pv s1 a b).2 = s1 :=
  ⟨rfl, rfl, rfl⟩

/-- C5: for every covariate row of the model summary the reported hazard ratio is
exactly the exponential of that covariate's coefficient, and each hazard ratio and
confidence-interval endpoint derived in the key-findings block is exactly the
exponential of the corresponding coefficient or bound. -/
theorem C5_hazard_ratio_exp (e : ℚ → ℚ) (c : CoxFit) :
    (∀ r ∈ summaryRows e c, r.2.2 = e r.2.1) ∧
    (keyFindings e c).hr_premium = e c.coef_premium ∧
    (keyFindings e c).hr_interviews = e c.coef_interviews ∧
    (keyFindings e c).hrCiLo_premium = e c.ciLo_premium ∧
    (keyFindings e c).hrCiHi_premium = e c.ciHi_premium ∧
    (keyFindings e c).hrCiLo_interviews = e c.ciLo_interviews ∧
    (keyFindings e c).hrCiHi_interviews = e c.ciHi_interviews := by
  refine ⟨?_, rfl, rfl, rfl, rfl, rfl, rfl⟩
  intro r hr
  simp only [summaryRows, coefRows, List.map_cons, List.map_nil, List.mem_cons,
    List.not_mem_nil, or_false] at hr
  rcases hr with h | h | h | h | h <;> subst h <;> rfl

/-- Witness for C5 at the concrete fit `cfit0` with the identity standing in for
the exponential: the interview-count summary row carries ratio e(coefficient). -/
theorem C5_hazard_ratio_exp_witness :
    ("num_interviews", (2 : ℚ), (2 : ℚ)) ∈ summaryRows id cfit0 ∧
    ("num_interviews", (2 : ℚ), (2 : ℚ)).2.2 = id ("num_interviews", (2 : ℚ), (2 : ℚ)).2.1 := by
  have hm : ("num_interviews", (2 : ℚ), (2 : ℚ)) ∈ summaryRows id cfit0 := by decide
  exact ⟨hm, (C5_hazard_ratio_exp id cfit0).1 _ hm⟩

/-- C7: the script installs no exception handler around the regression fit, so
whenever the fit fails to converge the error propagates as a fatal, user-visible
abort carrying the library's message, and only a converged fit produces the
key-findings report. -/
theorem C7_convergence_fatal (e : ℚ → ℚ) (msg : String) (fit : CoxFit) :
    runRegression e (FitResult.convergenceError msg) = Except.error msg ∧
    runRegression e (FitResult.ok fit) = Except.ok (keyFindings e fit) :=
  ⟨rfl, rfl⟩

end Retention
